import Mathlib

/-!
Verification of the histogrammar test-generator script
(test-generator/overwrite-unit-tests.py) against its specification.

Modelling conventions:
* Python floats are modelled as rationals: every numeric constant in the
  script is an exact decimal, and the claims under scrutiny concern the
  exact structure of the formulas, not rounding.
* Python lists become Lean lists; Python `zip` is `List.zip` (which
  truncates to the shorter argument, as in Python).
* Fallible evaluation is `Except String`: the module body contains no
  module imports, so the name `math` used in `variance` and
  `varianceWeighted` is unbound and evaluating `math.pow` raises a
  NameError; this is modelled by `mathPow` consulting `moduleImports`.
* `str.replace(old, new)` is modelled by `pyReplace`, a fuel-based
  left-to-right non-overlapping scan that replaces every occurrence,
  exactly as Python does for a nonempty `old` (the script only ever
  replaces the nonempty marker).
-/

set_option autoImplicit false

/-- Source line 3: the ten sample values
`simple = [3.4, 2.2, -1.8, 0.0, 7.3, -4.7, 1.6, 0.0, -3.0, -1.7]`. -/
def simple : List ℚ := [3.4, 2.2, -1.8, 0.0, 7.3, -4.7, 1.6, 0.0, -3.0, -1.7]

/-- Source lines 5-12: class Struct with fields bool, int, double, string. -/
structure Struct where
  bool : Bool
  int : ℤ
  double : ℚ
  string : String
deriving Repr, DecidableEq

/-- Source lines 14-23: the ten Struct fixtures. -/
def struct : List Struct :=
  [⟨true,  -2,  3.4, "one"⟩,
   ⟨false, -1,  2.2, "two"⟩,
   ⟨true,   0, -1.8, "three"⟩,
   ⟨false,  1,  0.0, "four"⟩,
   ⟨false,  2,  7.3, "five"⟩,
   ⟨false,  3, -4.7, "six"⟩,
   ⟨true,   4,  1.6, "seven"⟩,
   ⟨true,   5,  0.0, "eight"⟩,
   ⟨false,  6, -3.0, "nine"⟩,
   ⟨true,   7, -1.7, "ten"⟩]

/-- Source lines 25-29: `mean` returns 0.0 on the empty list, otherwise
the sum divided by the length. -/
def mean (x : List ℚ) : ℚ :=
  if x.length = 0 then 0 else x.sum / (x.length : ℚ)

/-- Python `any(_ > 0.0 for _ in w)`. -/
def anyPos (w : List ℚ) : Bool :=
  w.any (fun v => decide (0 < v))

/-- Python `sum(_ for _ in w if _ > 0.0)`: the sum of the strictly
positive weights (denominator of `meanWeighted` and `varianceWeighted`). -/
def posWeightSum (w : List ℚ) : ℚ :=
  (w.filter (fun v => decide (0 < v))).sum

/-- Python `sum(_ > 0.0 for _ in w)`: booleans are summed as 0/1, so this
is the NUMBER of strictly positive weights (denominator appearing in the
source of `maeWeighted`, line 59). -/
def posWeightCount (w : List ℚ) : ℚ :=
  ((w.filter (fun v => decide (0 < v))).length : ℚ)

/-- Source lines 31-35: `meanWeighted` returns 0.0 when no weight is
strictly positive; otherwise the sum over zipped pairs of
`xi * max(wi, 0.0)` divided by the sum of the strictly positive weights. -/
def meanWeighted (x w : List ℚ) : ℚ :=
  if ¬ anyPos w then 0
  else ((x.zip w).map (fun p => p.1 * max p.2 0)).sum / posWeightSum w

/-- Source lines 49-53: `mae` returns 0.0 on the empty list, otherwise
the mean of absolute values. -/
def mae (x : List ℚ) : ℚ :=
  if x.length = 0 then 0 else (x.map (fun v => |v|)).sum / (x.length : ℚ)

/-- Source lines 55-59: `maeWeighted` as written in the source: the
numerator is the sum of `abs(xi) * max(wi, 0.0)` over zipped pairs, but
the denominator is `sum(_ > 0.0 for _ in w)`, which sums booleans, i.e.
COUNTS the strictly positive weights instead of summing them. -/
def maeWeighted (x w : List ℚ) : ℚ :=
  if ¬ anyPos w then 0
  else ((x.zip w).map (fun p => |p.1| * max p.2 0)).sum / posWeightCount w

/-- Source lines 1-3: the module prologue contains no import statement
at all (only the shebang line precedes the data), so no module name is
ever bound. -/
def moduleImports : List String := []

/-- Whether the name `math` is bound in the module: it is not, since the
script never imports it. -/
def mathImported : Bool := moduleImports.contains "math"

/-- Evaluating `math.pow(b, e)` in the module: since `math` is unbound,
this raises a NameError; were the import present it would compute the
power. -/
def mathPow (b : ℚ) (e : ℕ) : Except String ℚ :=
  if mathImported then Except.ok (b ^ e)
  else Except.error "NameError: name math is not defined"

/-- Source lines 37-41: `variance` returns 0.0 on the empty list;
otherwise it evaluates `sum(math.pow(_, 2) for _ in x) / len(x) -
math.pow(sum(x)/len(x), 2)`, whose first `math.pow` call raises because
`math` was never imported. -/
def variance (x : List ℚ) : Except String ℚ :=
  if x.length = 0 then Except.ok 0
  else do
    let sq ← x.mapM (fun v => mathPow v 2)
    let m ← mathPow (x.sum / (x.length : ℚ)) 2
    Except.ok (sq.sum / (x.length : ℚ) - m)

/-- Source lines 43-47: `varianceWeighted` returns 0.0 when no weight is
strictly positive; otherwise the weighted mean of squares (computed with
the `**` operator, which cannot raise) minus `math.pow(weighted mean, 2)`,
which raises because `math` was never imported. -/
def varianceWeighted (x w : List ℚ) : Except String ℚ :=
  if ¬ anyPos w then Except.ok 0
  else do
    let num := ((x.zip w).map (fun p => p.1 ^ 2 * max p.2 0)).sum
    let m ← mathPow (((x.zip w).map (fun p => p.1 * max p.2 0)).sum / posWeightSum w) 2
    Except.ok (num / posWeightSum w - m)

/-- Source line 109: the expected `data` value asserted at weightedCount
step `i` is `sum(filter(lambda v: v >= 0.0, simple[:i+1]))`, the sum of
the non-negative sample values among the first `i+1`. -/
def weightedCountExpected (i : ℕ) : ℚ :=
  ((simple.take (i + 1)).filter (fun v => decide (0 ≤ v))).sum

/-- Source lines 61-68: class PurePython: a name, a constructor
expression, the auto-assertion statements, and the accumulated list of
body statements (`self.tests`, initially empty). -/
structure PurePython where
  name : String
  constructor : String
  autoassertions : List String
  tests : List String
deriving Repr, DecidableEq

/-- Source line 62: the class attribute `var = "x"`, the variable name
used for the instance under test. -/
def PurePython.var : String := "x"

/-- Source lines 64-68: the constructor initialises the fields and an
empty body. -/
def PurePython.init (name constructor : String) (autoassertions : List String) : PurePython :=
  ⟨name, constructor, autoassertions, []⟩

/-- Source line 74: the fill statement built from a fill value, i.e.
`var ++ ".fill(" ++ value ++ ")"`. -/
def fillStmt (v : String) : String :=
  PurePython.var ++ ".fill(" ++ v ++ ")"

/-- Source lines 70-75, method `test` (the AppendStep operation): append
every auto-assertion in order, then — when the fill value is not None —
one fill statement, then the assertion. Strictly additive on
`self.tests`; no other field changes. -/
def PurePython.test (p : PurePython) (fillvalue : Option String) (assertion : String) : PurePython :=
  let t := p.tests ++ p.autoassertions
  let t := match fillvalue with
    | some v => t ++ [fillStmt v]
    | none => t
  { p with tests := t ++ [assertion] }

/-- Source lines 77-83, method `string` (Render), with the object state
threaded explicitly: the method builds a local list `out` from a header
line, the instantiation line and one indented line per accumulated body
statement, and joins with newlines. The body only reads attributes of
self and appends to the local `out`, so the returned object state is the
receiver unchanged. -/
def PurePython.stringM (p : PurePython) : String × PurePython :=
  let out := ["    def test_" ++ p.name ++ "(self):"]
  let out := out ++ ["        " ++ PurePython.var ++ " = " ++ p.constructor]
  let out := p.tests.foldl (fun acc t => acc ++ ["        " ++ t]) out
  (String.intercalate "\n" out, p)

/-- The text produced by Render (first component of `stringM`). -/
def PurePython.string (p : PurePython) : String :=
  p.stringM.1

/-- A driver run over one builder: fold a list of (fill value, assertion)
steps through `PurePython.test`, as the loops at source lines 107-109 and
122-128 do. -/
def runSteps (p : PurePython) (steps : List (Option String × String)) : PurePython :=
  steps.foldl (fun q st => q.test st.1 st.2) p

/-- The statements a single step contributes to the body, per source
lines 70-75: the auto-assertions, the optional fill, the assertion. -/
def stepStmts (autoassertions : List String) (st : Option String × String) : List String :=
  autoassertions ++ (match st.1 with | some v => [fillStmt v] | none => []) ++ [st.2]

/-- Source line 61 of TEMPLATES/PurePython.py: the placeholder marker
found in the template text (`\x7b\x7bTESTS\x7d\x7d`). -/
def placeholderMarker : String := "\x7b\x7bTESTS\x7d\x7d"

/-- Python `str.replace(old, new)` on character lists, written with
explicit fuel so that it computes by structural recursion: scan left to
right; at a position where `old` (nonempty) is a prefix, emit `new` and
continue after the matched occurrence; otherwise keep the character.
Replaces EVERY non-overlapping occurrence, as Python does. Each
recursive call shortens the list, so `length + 1` fuel always suffices. -/
def replaceAllFuel : ℕ → List Char → List Char → List Char → List Char
  | 0, s, _, _ => s
  | fuel + 1, s, old, new =>
    match s with
    | [] => []
    | c :: rest =>
      if old.isPrefixOf (c :: rest) && !old.isEmpty then
        new ++ replaceAllFuel fuel ((c :: rest).drop old.length) old new
      else
        c :: replaceAllFuel fuel rest old new

/-- The number of (left-to-right, non-overlapping) occurrences of `old`
that the same scan as `replaceAllFuel` finds. -/
def countOccFuel : ℕ → List Char → List Char → ℕ
  | 0, _, _ => 0
  | fuel + 1, s, old =>
    match s with
    | [] => 0
    | c :: rest =>
      if old.isPrefixOf (c :: rest) && !old.isEmpty then
        countOccFuel fuel ((c :: rest).drop old.length) old + 1
      else
        countOccFuel fuel rest old

/-- Source line 146: `template.replace(marker, payload)`, Python string
replacement (every occurrence). -/
def pyReplace (s old new : String) : String :=
  ⟨replaceAllFuel (s.data.length + 1) s.data old.data new.data⟩

/-- Occurrence count of `old` in `s`, by the same scan. -/
def countOcc (s old : String) : ℕ :=
  countOccFuel (s.data.length + 1) s.data old.data

/-! ## Helper lemmas -/

lemma isPrefixOf_matchFacts {old : List Char} {c : Char} {rest : List Char}
    (hc : (old.isPrefixOf (c :: rest) && !old.isEmpty) = true) :
    1 ≤ old.length ∧ old.length ≤ rest.length + 1 := by
  rw [Bool.and_eq_true] at hc
  obtain ⟨hpre, hne⟩ := hc
  have h1 : old ≠ [] := by
    cases old with
    | nil => simp at hne
    | cons _ _ => simp
  have h2 : old.length ≤ (c :: rest).length :=
    (List.isPrefixOf_iff_prefix.mp hpre).length_le
  simp only [List.length_cons] at h2
  refine ⟨?_, h2⟩
  cases old with
  | nil => exact absurd rfl h1
  | cons _ _ => simp

/-- Replacing every one of the `countOccFuel` occurrences trades
`old.length` characters for `new.length` characters each time. -/
lemma replaceAllFuel_len (fuel : ℕ) : ∀ (s old new : List Char), s.length < fuel →
    (replaceAllFuel fuel s old new).length + countOccFuel fuel s old * old.length
      = s.length + countOccFuel fuel s old * new.length := by
  induction fuel with
  | zero => intro s old new h; exact absurd h (Nat.not_lt_zero _)
  | succ fuel ih =>
    intro s old new h
    match s with
    | [] => simp [replaceAllFuel, countOccFuel]
    | c :: rest =>
      rw [replaceAllFuel, countOccFuel]
      cases hc : (old.isPrefixOf (c :: rest) && !old.isEmpty) with
      | false =>
        simp only [Bool.false_eq_true, if_false]
        have hlt : rest.length < fuel := by
          simp only [List.length_cons] at h; omega
        have hih := ih rest old new hlt
        simp only [List.length_cons]
        omega
      | true =>
        simp only [if_true]
        obtain ⟨h1, h2⟩ := isPrefixOf_matchFacts hc
        have hdlen : ((c :: rest).drop old.length).length = rest.length + 1 - old.length := by
          rw [List.length_drop]; simp
        have hlt : ((c :: rest).drop old.length).length < fuel := by
          rw [hdlen]; simp only [List.length_cons] at h; omega
        have hih := ih ((c :: rest).drop old.length) old new hlt
        simp only [List.length_append, List.length_cons, Nat.succ_mul]
        generalize countOccFuel fuel ((c :: rest).drop old.length) old * old.length = A at hih ⊢
        generalize countOccFuel fuel ((c :: rest).drop old.length) old * new.length = B at hih ⊢
        omega

/-- A scan that finds no occurrence leaves the text unchanged. -/
lemma replaceAllFuel_id (fuel : ℕ) : ∀ (s old new : List Char), s.length < fuel →
    countOccFuel fuel s old = 0 → replaceAllFuel fuel s old new = s := by
  induction fuel with
  | zero => intro s old new h; exact absurd h (Nat.not_lt_zero _)
  | succ fuel ih =>
    intro s old new h h0
    match s with
    | [] => simp [replaceAllFuel]
    | c :: rest =>
      rw [countOccFuel] at h0
      rw [replaceAllFuel]
      cases hc : (old.isPrefixOf (c :: rest) && !old.isEmpty) with
      | false =>
        simp only [Bool.false_eq_true, if_false]
        rw [hc] at h0
        simp only [Bool.false_eq_true, if_false] at h0
        have hlt : rest.length < fuel := by
          simp only [List.length_cons] at h; omega
        rw [ih rest old new hlt h0]
      | true =>
        rw [hc] at h0
        simp at h0

/-- String-level form of `replaceAllFuel_len`. -/
lemma pyReplace_len (s old new : String) :
    (pyReplace s old new).length + countOcc s old * old.length
      = s.length + countOcc s old * new.length :=
  replaceAllFuel_len (s.data.length + 1) s.data old.data new.data (Nat.lt_succ_self _)

/-- String-level form of `replaceAllFuel_id`. -/
lemma pyReplace_id (s old new : String) (h0 : countOcc s old = 0) :
    pyReplace s old new = s := by
  show String.mk (replaceAllFuel (s.data.length + 1) s.data old.data new.data) = s
  rw [replaceAllFuel_id (s.data.length + 1) s.data old.data new.data (Nat.lt_succ_self _) h0]

/-- Folding a one-element append over a list extends the accumulator by
the mapped list (the shape of the render loop at source lines 81-82). -/
lemma foldl_append_singleton {α β : Type} (f : α → β) (l : List α) : ∀ init : List β,
    l.foldl (fun acc t => acc ++ [f t]) init = init ++ l.map f := by
  induction l with
  | nil => intro init; simp
  | cons a l ih => intro init; simp [List.foldl_cons, ih]

/-- Render, spelled out: header line, instantiation line, then one
indented line per accumulated statement, joined by newlines. -/
lemma PurePython.string_eq (p : PurePython) :
    p.string = String.intercalate "\n"
      (("    def test_" ++ p.name ++ "(self):") ::
       ("        " ++ PurePython.var ++ " = " ++ p.constructor) ::
       p.tests.map (fun t => "        " ++ t)) := by
  simp only [PurePython.string, PurePython.stringM]
  rw [foldl_append_singleton]
  rfl

/-- One AppendStep call contributes exactly `stepStmts` to the body and
changes nothing else. -/
lemma PurePython.test_eq (p : PurePython) (st : Option String × String) :
    p.test st.1 st.2 = ⟨p.name, p.constructor, p.autoassertions,
      p.tests ++ stepStmts p.autoassertions st⟩ := by
  obtain ⟨f, a⟩ := st
  cases f <;> simp [PurePython.test, stepStmts]

/-- A driver run appends the per-step statement blocks, in order, to the
body, leaving the identifying fields untouched. -/
lemma runSteps_eq (steps : List (Option String × String)) : ∀ p : PurePython,
    runSteps p steps = ⟨p.name, p.constructor, p.autoassertions,
      p.tests ++ (steps.map (stepStmts p.autoassertions)).flatten⟩ := by
  induction steps with
  | nil => intro p; cases p; simp [runSteps]
  | cons st steps ih =>
    intro p
    have hstep : runSteps p (st :: steps) = runSteps (p.test st.1 st.2) steps := by
      simp [runSteps]
    rw [hstep, ih, PurePython.test_eq]
    simp [List.flatten]

/-- The number of statements one AppendStep call emits. -/
lemma stepStmts_length (autoassertions : List String) (st : Option String × String) :
    (stepStmts autoassertions st).length
      = autoassertions.length + (if st.1.isSome then 1 else 0) + 1 := by
  obtain ⟨f, a⟩ := st
  cases f <;> simp [stepStmts]

/-- Summing the non-negative entries of a list equals summing the list
with negative entries replaced by zero. -/
lemma sum_filter_nonneg (l : List ℚ) :
    (l.filter (fun v => decide (0 ≤ v))).sum
      = (l.map (fun v => if 0 ≤ v then v else 0)).sum := by
  induction l with
  | nil => rfl
  | cons a l ih => by_cases ha : 0 ≤ a <;> simp [List.filter_cons, ha, ih]

/-- If some weight is strictly positive, the sum of the strictly positive
weights is strictly positive. -/
lemma posWeightSum_pos {w : List ℚ} (h : anyPos w = true) : 0 < posWeightSum w := by
  simp only [anyPos, List.any_eq_true, decide_eq_true_eq] at h
  obtain ⟨v, hv, hvpos⟩ := h
  have hvmem : v ∈ w.filter (fun u => decide (0 < u)) :=
    List.mem_filter.mpr ⟨hv, by simpa using hvpos⟩
  refine List.sum_pos _ (fun a ha => ?_) (List.ne_nil_of_mem hvmem)
  exact (by simpa using (List.mem_filter.mp ha).2 : 0 < a)

/-- The sum of the positive weights splits across a take/drop split of
the weight list. -/
lemma posWeightSum_split (w : List ℚ) (n : ℕ) :
    posWeightSum w = posWeightSum (w.take n) + posWeightSum (w.drop n) := by
  rw [posWeightSum, posWeightSum, posWeightSum, ← List.sum_append,
    ← List.filter_append, List.take_append_drop]

/-- Zipping truncates to the shorter list: zipping `x` against `w` is the
same as zipping against the first `x.length` entries of `w`. -/
lemma zip_take_length (x w : List ℚ) : x.zip (w.take x.length) = x.zip w := by
  induction x generalizing w with
  | nil => simp
  | cons a xs ih =>
    cases w with
    | nil => simp
    | cons b ws => simpa using ih ws

/-- A weight list whose entries are all zero has no strictly positive
entry. -/
lemma anyPos_of_all_zero {w : List ℚ} (h : ∀ v ∈ w, v = 0) : anyPos w = false := by
  simp only [anyPos, List.any_eq_false, decide_eq_true_eq]
  intro v hv
  rw [h v hv]
  exact lt_irrefl 0

/-! ## Claims -/

/-- C1: the claim states that maeWeighted divides the weighted sum of
absolute values by the SUM of the strictly positive weights, as
meanWeighted does. The code instead divides by the COUNT of strictly
positive weights. At values [2.0] and weights [2.0] the claimed value is
abs 2 * 2 / 2 = 2, but the code yields abs 2 * 2 / 1 = 4; the sum of
positive weights is 2 while the denominator the code uses is 1. -/
theorem claim1_maeWeighted_divides_by_count :
    maeWeighted [2] [2] = 4 ∧ meanWeighted [2] [2] = 2 ∧
    posWeightSum [2] = 2 ∧ posWeightCount [2] = 1 := by
  refine ⟨?_, ?_, ?_, ?_⟩ <;>
    norm_num [maeWeighted, meanWeighted, anyPos, posWeightSum, posWeightCount]

/-- C2 (counterexample): after processing the first three samples
3.4, 2.2, -1.8 with weight 3.14 each, the driver asserts a count of
3.4 + 2.2 = 5.6 — the sum of the non-negative sample values — not
3.14 + 3.14 = 6.28 as the claim states. -/
theorem claim2_weightedCount_counterexample :
    weightedCountExpected 2 = 5.6 ∧ weightedCountExpected 2 ≠ 3.14 + 3.14 := by
  constructor <;> norm_num [weightedCountExpected, simple]

/-- C2 (amended): the count asserted at weightedCount step i is the
cumulative sum of the non-negative sample values themselves among
simple[0..i] (each sample value acts as the fill weight; 3.14 is the
datum), e.g. 3.4 + 2.2 = 5.6 after the first three samples. -/
theorem claim2_weightedCount_amended :
    (∀ i : ℕ, weightedCountExpected i
        = ((simple.take (i + 1)).map (fun v => if 0 ≤ v then v else 0)).sum) ∧
    weightedCountExpected 2 = 3.4 + 2.2 :=
  ⟨fun _ => sum_filter_nonneg _, by norm_num [weightedCountExpected, simple]⟩

/-- C3 (counterexample): on a template consisting of the marker twice,
Python replace substitutes the payload for BOTH occurrences, producing
XX, not only the first occurrence (which would leave the second marker in
place). -/
theorem claim3_first_occurrence_counterexample :
    pyReplace "\x7b\x7bTESTS\x7d\x7d\x7b\x7bTESTS\x7d\x7d" placeholderMarker "X" = "XX" ∧
    ("XX" : String) ≠ "X\x7b\x7bTESTS\x7d\x7d" := by
  constructor <;> decide

/-- C3 (amended): the template-expansion step substitutes the payload for
EVERY left-to-right non-overlapping occurrence of the marker: with zero
markers the text is returned unchanged, and in general each of the
countOcc occurrences trades one marker length for one payload length in
the output. -/
theorem claim3_every_occurrence (s payload : String) :
    (countOcc s placeholderMarker = 0 → pyReplace s placeholderMarker payload = s) ∧
    (pyReplace s placeholderMarker payload).length
        + countOcc s placeholderMarker * placeholderMarker.length
      = s.length + countOcc s placeholderMarker * payload.length :=
  ⟨fun h0 => pyReplace_id s placeholderMarker payload h0,
   pyReplace_len s placeholderMarker payload⟩

/-- C3 (witness): a concrete marker-free template is returned unchanged. -/
theorem claim3_every_occurrence_witness :
    countOcc "ab" placeholderMarker = 0 ∧ pyReplace "ab" placeholderMarker "X" = "ab" :=
  ⟨by decide, (claim3_every_occurrence "ab" "X").1 (by decide)⟩

/-- C4: the claim states the reference helpers raise no exception, but
the module never imports math, so variance raises NameError on every
non-empty input and varianceWeighted raises NameError whenever some
weight is strictly positive. -/
theorem claim4_variance_raises :
    (∀ x : List ℚ, x ≠ [] →
      variance x = Except.error "NameError: name math is not defined") ∧
    (∀ x w : List ℚ, anyPos w = true →
      varianceWeighted x w = Except.error "NameError: name math is not defined") := by
  constructor
  · intro x hx
    match x with
    | [] => exact absurd rfl hx
    | a :: rest => rfl
  · intro x w hw
    unfold varianceWeighted
    rw [if_neg (not_not_intro hw)]
    rfl

/-- C4 (witness): the concrete failing input variance([1.0]). -/
theorem claim4_variance_raises_witness :
    (([1] : List ℚ) ≠ []) ∧
    variance [1] = Except.error "NameError: name math is not defined" ∧
    anyPos [1] = true ∧
    varianceWeighted [1] [1] = Except.error "NameError: name math is not defined" :=
  ⟨by simp, claim4_variance_raises.1 [1] (by simp), rfl,
   claim4_variance_raises.2 [1] [1] rfl⟩

/-- C5: over any sequence of AppendStep calls, the accumulated body is
exactly the concatenation, in call order, of each step's block (the
auto-assertions in order, then the fill statement when present, then the
assertion); its length is the claimed sum; and the rendered text is the
header, the instantiation line and the body statements, indented, in that
exact order. -/
theorem claim5_statement_count_and_order (nm ctor : String) (auto : List String)
    (steps : List (Option String × String)) :
    (runSteps (PurePython.init nm ctor auto) steps).tests
        = (steps.map (stepStmts auto)).flatten ∧
    (runSteps (PurePython.init nm ctor auto) steps).tests.length
        = (steps.map (fun st => auto.length + (if st.1.isSome then 1 else 0) + 1)).sum ∧
    (runSteps (PurePython.init nm ctor auto) steps).string
        = String.intercalate "\n"
            (("    def test_" ++ nm ++ "(self):") ::
             ("        " ++ PurePython.var ++ " = " ++ ctor) ::
             (runSteps (PurePython.init nm ctor auto) steps).tests.map
               (fun t => "        " ++ t)) := by
  have h := runSteps_eq steps (PurePython.init nm ctor auto)
  refine ⟨?_, ?_, ?_⟩
  · rw [h]; simp [PurePython.init]
  · rw [h]
    simp [PurePython.init, List.length_flatten, List.map_map, Function.comp_def,
      stepStmts_length]
  · rw [PurePython.string_eq, h]
    simp [PurePython.init]

/-- C6: Render is pure: rendering twice with no intervening AppendStep
yields identical text, and rendering leaves the name, constructor
expression, auto-assertions and accumulated body unchanged. -/
theorem claim6_render_idempotent (p : PurePython) :
    p.stringM.2.stringM.1 = p.stringM.1 ∧
    p.stringM.2.name = p.name ∧
    p.stringM.2.constructor = p.constructor ∧
    p.stringM.2.autoassertions = p.autoassertions ∧
    p.stringM.2.tests = p.tests :=
  ⟨rfl, rfl, rfl, rfl, rfl⟩

/-- C7: when the template contains exactly one occurrence of the marker,
the substituted output length is the template length minus the marker
length plus the payload length. -/
theorem claim7_substitution_length (t payload : String)
    (h : countOcc t placeholderMarker = 1) :
    ((pyReplace t placeholderMarker payload).length : ℤ)
      = (t.length : ℤ) - (placeholderMarker.length : ℤ) + (payload.length : ℤ) := by
  have hlen := pyReplace_len t placeholderMarker payload
  rw [h] at hlen
  simp only [one_mul] at hlen
  omega

/-- C7 (witness): a concrete one-marker template of length 11 with a
payload of length 2 yields output of length 11 - 9 + 2 = 4. -/
theorem claim7_substitution_length_witness :
    countOcc "A\x7b\x7bTESTS\x7d\x7dB" placeholderMarker = 1 ∧
    ((pyReplace "A\x7b\x7bTESTS\x7d\x7dB" placeholderMarker "xy").length : ℤ)
      = (("A\x7b\x7bTESTS\x7d\x7dB" : String).length : ℤ)
        - (placeholderMarker.length : ℤ) + (("xy" : String).length : ℤ) :=
  ⟨by decide, claim7_substitution_length "A\x7b\x7bTESTS\x7d\x7dB" "xy" (by decide)⟩

/-- C8: the oracle equations, under exact rational arithmetic, as far as
the code satisfies them: mean of the empty list is 0; mean of 3.4 and 2.2
is 2.8; meanWeighted is 0 whenever every weight is zero, for every value
list; meanWeighted of values 1, 2 with weights 1, -1 is 1; but
variance([2.0, 4.0]) raises NameError (math is never imported) instead of
returning the claimed 1.0. -/
theorem claim8_numeric_oracles :
    mean [] = 0 ∧
    mean [3.4, 2.2] = 2.8 ∧
    (∀ x w : List ℚ, (∀ v ∈ w, v = 0) → meanWeighted x w = 0) ∧
    meanWeighted [1, 2] [1, -1] = 1 ∧
    variance [2, 4] = Except.error "NameError: name math is not defined" := by
  refine ⟨rfl, by norm_num [mean], ?_, ?_, rfl⟩
  · intro x w hw
    simp [meanWeighted, anyPos_of_all_zero hw]
  · norm_num [meanWeighted, anyPos, posWeightSum]

/-- C8 (witness): the all-zero-weights clause at concrete inputs. -/
theorem claim8_numeric_oracles_witness :
    meanWeighted [5, 7] [0, 0] = 0 :=
  claim8_numeric_oracles.2.2.1 [5, 7] [0, 0] (by simp)

/-- C9: the two fixed datasets are value-parallel: mapping the double
field over the ten Struct fixtures yields exactly the ten simple sample
values, and both lists have length 10. -/
theorem claim9_struct_value_parallel :
    struct.map Struct.double = simple ∧ struct.length = 10 ∧ simple.length = 10 := by
  refine ⟨?_, rfl, rfl⟩
  norm_num [struct, simple]

/-- C10: when the weight list is longer than the value list and some
weight is positive, the numerator of meanWeighted ranges only over the
first len(x) weight/value pairs (zip truncates) while the denominator
also collects every positive weight beyond index len(x); consequently a
positive total weight beyond len(x) strictly shrinks the magnitude of the
result (whenever it is nonzero) relative to truncating the weights. -/
theorem claim10_meanWeighted_asymmetry (x w : List ℚ)
    (hlen : x.length < w.length) (hp : anyPos w = true) :
    meanWeighted x w
        = ((x.zip (w.take x.length)).map (fun p => p.1 * max p.2 0)).sum
          / (posWeightSum (w.take x.length) + posWeightSum (w.drop x.length)) ∧
    (0 < posWeightSum (w.drop x.length) → anyPos (w.take x.length) = true →
      ((x.zip w).map (fun p => p.1 * max p.2 0)).sum ≠ 0 →
      |meanWeighted x w| < |meanWeighted x (w.take x.length)|) := by
  have hsplit := posWeightSum_split w x.length
  have hzip := zip_take_length x w
  constructor
  · rw [meanWeighted, if_neg (not_not_intro hp), hzip, ← hsplit]
  · intro hdrop htake hnum
    have h1 : 0 < posWeightSum (w.take x.length) := posWeightSum_pos htake
    have hmw : meanWeighted x w
        = ((x.zip w).map (fun p => p.1 * max p.2 0)).sum / posWeightSum w := by
      rw [meanWeighted, if_neg (not_not_intro hp)]
    have hmt : meanWeighted x (w.take x.length)
        = ((x.zip w).map (fun p => p.1 * max p.2 0)).sum
          / posWeightSum (w.take x.length) := by
      rw [meanWeighted, if_neg (not_not_intro htake), hzip]
    have h2 : 0 < posWeightSum w := by rw [hsplit]; linarith
    rw [hmw, hmt, abs_div, abs_div, abs_of_pos h1, abs_of_pos h2]
    apply div_lt_div_of_pos_left (abs_pos.mpr hnum) h1
    rw [hsplit]
    linarith

/-- C10 (witness): values [1.0] against weights [1.0, 1.0]: the result is
1/2, half the value of the run truncated to the first weight. -/
theorem claim10_meanWeighted_asymmetry_witness :
    meanWeighted [1] [1, 1]
        = (([1].zip ([1, 1].take 1)).map (fun p => p.1 * max p.2 0)).sum
          / (posWeightSum ([1, 1].take 1) + posWeightSum ([1, 1].drop 1)) ∧
    |meanWeighted [1] [1, 1]| < |meanWeighted [1] ([1, 1].take 1)| := by
  have h := claim10_meanWeighted_asymmetry [1] [1, 1] (by norm_num)
    (by norm_num [anyPos])
  exact ⟨h.1, h.2 (by norm_num [posWeightSum]) (by norm_num [anyPos])
    (by norm_num [List.zip])⟩
